import Mathlib

/-!
Shallow embedding of the claim-handshake core of the lost-and-found
application (apps `items`: `models.py`, `views.py`, `forms.py`).

Users, items, claims and messages are identified by opaque ids, modelled
as naturals (Django uses UUIDs; only equality is ever used).  The
database is modelled as lists of rows kept in insertion order; each
Django `save()` / `create()` is one committed write.  Timestamps are
naturals (`created_at`); `auto_now_add` is modelled by passing the
current clock value into the operation.
-/

namespace LostFound

abbrev UserId := Nat
abbrev ItemId := Nat
abbrev ClaimId := Nat
abbrev MsgId := Nat
abbrev Uuid := Nat

/-- `ItemStatus` choices from `items/models.py` (`found`, `claimed`, `returned`). -/
inductive ItemStatus where
  | found
  | claimed
  | returned
deriving DecidableEq

/-- `ClaimStatus` choices from `items/models.py` (`pending`, `approved`, `rejected`). -/
inductive ClaimStatus where
  | pending
  | approved
  | rejected
deriving DecidableEq

/-- Row of the `Item` model: finder FK, descriptor fields, status, and the
unique `handshake_uuid` (`editable=False`, `unique=True`). -/
structure Item where
  id : ItemId
  finder : UserId
  title : String
  description : String
  category : String
  image : String
  neighborhood : String
  city : String
  status : ItemStatus
  handshake_uuid : Uuid
deriving DecidableEq

/-- Row of the `Claim` model: item FK, seeker FK, proof text, status. -/
structure Claim where
  id : ClaimId
  item : ItemId
  seeker : UserId
  proof_of_ownership : String
  status : ClaimStatus
deriving DecidableEq

/-- Row of the `Message` model: claim FK, sender FK, body, `created_at`. -/
structure Message where
  id : MsgId
  claim : ClaimId
  sender : UserId
  body : String
  created_at : Nat
deriving DecidableEq

/-- The persistent store: one list per table, rows in insertion order. -/
structure DB where
  items : List Item
  claims : List Claim
  messages : List Message
deriving DecidableEq

/-- `get_object_or_404(Item, pk=pk)`. -/
def findItem (db : DB) (pk : ItemId) : Option Item :=
  db.items.find? (fun it => it.id == pk)

/-- `get_object_or_404(Claim, pk=pk)`. -/
def findClaim (db : DB) (pk : ClaimId) : Option Claim :=
  db.claims.find? (fun c => c.id == pk)

/-- `Message.objects.get(pk=after)` — a global lookup, not scoped to any claim. -/
def findMessage (db : DB) (pk : MsgId) : Option Message :=
  db.messages.find? (fun m => m.id == pk)

/-! ### Message thread ordering

`Message.Meta.ordering = ["created_at"]`: the thread of a claim is its
messages sorted ascending by `created_at`.  The sort is stable, so rows
with equal timestamps stay in insertion order. -/

/-- The `ORDER BY created_at` relation on messages. -/
def msgLE (a b : Message) : Prop := a.created_at ≤ b.created_at

instance : DecidableRel msgLE := fun a b => Nat.decLe a.created_at b.created_at

instance : IsTotal Message msgLE := ⟨fun a b => Nat.le_total a.created_at b.created_at⟩

instance : IsTrans Message msgLE := ⟨fun _ _ _ h h2 => Nat.le_trans h h2⟩

/-- `claim.messages.all()` with the model's default ordering: the claim's
messages, stably sorted ascending by `created_at`. -/
def claimThread (db : DB) (pk : ClaimId) : List Message :=
  List.insertionSort msgLE (db.messages.filter (fun m => m.claim == pk))

/-! ### Views: claim submission (`claim_create`) -/

/-- Python `str.strip()` as used by the form layer (`CharField` stripping)
and the chat API: drop whitespace from both ends of the string, modelled on
the character list. -/
def strip (s : String) : String :=
  ⟨((s.data.dropWhile Char.isWhitespace).reverse.dropWhile Char.isWhitespace).reverse⟩

/-- Outcome of the `claim_create` view (POST path). -/
inductive ClaimCreateResult where
  | notFound
  | selfClaimRedirect (itemId : ItemId)
  | existingRedirect (claimId : ClaimId)
  | formInvalid
  | created (claimId : ClaimId)
deriving DecidableEq

/-- `ClaimForm` validity: `proof_of_ownership` is a required text field,
stripped of surrounding whitespace. -/
def claimFormValid (proof : String) : Bool := !(strip proof == "")

/-- The `claim_create` view, POST path: 404 on unknown item; warn-and-redirect
when the requester is the item's finder; redirect to the existing claim when
one exists for (item, requester); otherwise validate the form and create a
`pending` claim.  Note the view never reads `item.status`. -/
def claim_create (db : DB) (user : UserId) (item_pk : ItemId)
    (proof : String) (newId : ClaimId) : ClaimCreateResult × DB :=
  match findItem db item_pk with
  | none => (.notFound, db)
  | some item =>
    if item.finder == user then
      (.selfClaimRedirect item.id, db)
    else
      match db.claims.find? (fun c => c.item == item.id && c.seeker == user) with
      | some existing => (.existingRedirect existing.id, db)
      | none =>
        if claimFormValid proof then
          (.created newId,
           { db with claims := db.claims ++
               [{ id := newId, item := item.id, seeker := user,
                  proof_of_ownership := proof, status := .pending }] })
        else
          (.formInvalid, db)

/-! ### Views: approve / reject (`claim_respond`)

The approve branch mutates two rows and commits them with two separate
`save()` calls — `claim.item.save()` first, then `claim.save()` — with no
transaction wrapping them.  We embed the branch as the ordered list of
committed writes it issues, so that the state after any prefix of commits
is expressible. -/

/-- One committed row write. -/
inductive WriteOp where
  | setItemStatus (itemId : ItemId) (s : ItemStatus)
  | setClaimStatus (claimId : ClaimId) (s : ClaimStatus)
deriving DecidableEq

/-- Commit one write to the store. -/
def applyWrite (db : DB) : WriteOp → DB
  | .setItemStatus i s =>
      { db with items := db.items.map (fun it =>
          if it.id == i then { it with status := s } else it) }
  | .setClaimStatus c s =>
      { db with claims := db.claims.map (fun cl =>
          if cl.id == c then { cl with status := s } else cl) }

/-- Commit a sequence of writes in order. -/
def applyWrites (db : DB) (ws : List WriteOp) : DB := ws.foldl applyWrite db

/-- Writes issued by the approve branch: `claim.item.status = CLAIMED;
claim.item.save()` commits first, `claim.status = APPROVED; claim.save()`
commits second. -/
def approveWrites (c : Claim) : List WriteOp :=
  [.setItemStatus c.item .claimed, .setClaimStatus c.id .approved]

/-- Writes issued by the reject branch: only `claim.save()`. -/
def rejectWrites (c : Claim) : List WriteOp :=
  [.setClaimStatus c.id .rejected]

/-- Outcome of the `claim_respond` view.  Unknown claim, non-finder
requester and unknown action all `raise Http404`. -/
inductive RespondResult where
  | notFound
  | done (claimId : ClaimId)
deriving DecidableEq

/-- The `claim_respond` view: 404 on unknown claim or when the requester is
not the item's finder; on `approve` sets the claim approved and the item
claimed; on `reject` sets the claim rejected; any other action is 404.
The view never inspects `claim.status` or `item.status` before writing. -/
def claim_respond (db : DB) (user : UserId) (pk : ClaimId) (action : String) :
    RespondResult × DB :=
  match findClaim db pk with
  | none => (.notFound, db)
  | some claim =>
    match findItem db claim.item with
    | none => (.notFound, db)
    | some item =>
      if item.finder == user then
        if action == "approve" then
          (.done claim.id, applyWrites db (approveWrites claim))
        else if action == "reject" then
          (.done claim.id, applyWrites db (rejectWrites claim))
        else
          (.notFound, db)
      else
        (.notFound, db)

/-! ### Views: claim detail and chat API -/

/-- HTTP-level outcome of the read/JSON endpoints: 404, 403, 400, or a
payload. -/
inductive Resp (α : Type) where
  | notFound
  | forbidden
  | badRequest
  | ok (val : α)
deriving DecidableEq

/-- The `claim_detail` view, GET path: 404 on unknown claim, and `raise
Http404` (not 403) when the requester is neither the claim's seeker nor the
item's finder; otherwise the claim with its chat thread. -/
def claim_detail (db : DB) (user : UserId) (pk : ClaimId) :
    Resp (ClaimId × List Message) :=
  match findClaim db pk with
  | none => .notFound
  | some claim =>
    match findItem db claim.item with
    | none => .notFound
    | some item =>
      if user == claim.seeker || user == item.finder then
        .ok (claim.id, claimThread db claim.id)
      else
        .notFound

/-- The `api_messages` view: 404 on unknown claim; 403 JSON error for a
requester who is neither seeker nor finder; otherwise the claim's thread,
restricted to messages with `created_at` strictly greater than the cursor
message's timestamp when `?after=<id>` names an existing message (looked up
globally, in any claim), and the full thread when the cursor is absent or
unknown (`Message.DoesNotExist` is swallowed by `pass`). -/
def api_messages (db : DB) (user : UserId) (pk : ClaimId) (after : Option MsgId) :
    Resp (List Message) :=
  match findClaim db pk with
  | none => .notFound
  | some claim =>
    match findItem db claim.item with
    | none => .notFound
    | some item =>
      if user == claim.seeker || user == item.finder then
        let qs := claimThread db claim.id
        match after with
        | none => .ok qs
        | some afterId =>
          match findMessage db afterId with
          | some last_msg => .ok (qs.filter (fun m => last_msg.created_at < m.created_at))
          | none => .ok qs
      else
        .forbidden

/-- The `api_send_message` view: 404 on unknown claim; 403 JSON error for a
non-participant (before anything is written); 400 when the stripped body is
empty; otherwise appends one message with the stripped body and a
server-assigned timestamp. -/
def api_send_message (db : DB) (user : UserId) (pk : ClaimId) (body : String)
    (newId : MsgId) (now : Nat) : Resp MsgId × DB :=
  match findClaim db pk with
  | none => (.notFound, db)
  | some claim =>
    match findItem db claim.item with
    | none => (.notFound, db)
    | some item =>
      if user == claim.seeker || user == item.finder then
        if strip body == "" then
          (.badRequest, db)
        else
          (.ok newId,
           { db with messages := db.messages ++
               [{ id := newId, claim := claim.id, sender := user,
                  body := strip body, created_at := now }] })
      else
        (.forbidden, db)

/-! ### Views: item creation, editing, handshake -/

/-- The fields of `ItemForm` (`title`, `description`, `category`, `image`,
`neighborhood`, `city`) — neither `status` nor `handshake_uuid` is a form
field. -/
structure ItemChanges where
  title : String
  description : String
  category : String
  image : String
  neighborhood : String
  city : String
deriving DecidableEq

/-- `ItemForm` validity: the required descriptor fields must be non-blank. -/
def itemFormValid (ch : ItemChanges) : Bool :=
  !(strip ch.title == "") && !(strip ch.description == "") && !(strip ch.neighborhood == "")

/-- Apply the form's cleaned data to an item row: only the six form fields
change; id, finder, status and `handshake_uuid` are untouched. -/
def applyChanges (it : Item) (ch : ItemChanges) : Item :=
  { it with title := ch.title, description := ch.description,
            category := ch.category, image := ch.image,
            neighborhood := ch.neighborhood, city := ch.city }

/-- The `item_create` view, valid-POST path: inserts a new item with
`status=found` and a freshly minted `handshake_uuid`.  The `unique=True`
constraint on `handshake_uuid` (and the primary key) makes the insert fail
rather than store a duplicate. -/
def item_create (db : DB) (user : UserId) (ch : ItemChanges)
    (newId : ItemId) (token : Uuid) : Except Unit DB :=
  if db.items.any (fun it => it.id == newId || it.handshake_uuid == token) then
    .error ()
  else
    .ok { db with items := db.items ++
            [{ id := newId, finder := user,
               title := ch.title, description := ch.description,
               category := ch.category, image := ch.image,
               neighborhood := ch.neighborhood, city := ch.city,
               status := .found, handshake_uuid := token }] }

/-- Outcome of the `item_edit` view. -/
inductive EditResult where
  | notFound
  | formInvalid (itemId : ItemId)
  | edited (itemId : ItemId)
deriving DecidableEq

/-- The `item_edit` view, POST path: `get_object_or_404(Item, pk=pk,
finder=request.user)`, then on a valid form saves only the form fields. -/
def item_edit (db : DB) (user : UserId) (pk : ItemId) (ch : ItemChanges) :
    EditResult × DB :=
  match db.items.find? (fun it => it.id == pk && it.finder == user) with
  | none => (.notFound, db)
  | some it =>
    if itemFormValid ch then
      (.edited it.id,
       { db with items := db.items.map (fun j =>
           if j.id == pk then applyChanges j ch else j) })
    else
      (.formInvalid it.id, db)

/-- Outcome of the `item_handshake` view. -/
inductive HandshakeResult where
  | notFound
  | redirectClaimCreate (itemId : ItemId) (warned : Bool)
deriving DecidableEq

/-- The `item_handshake` view: resolves the token; when the item is no
longer `found` it attaches an informational message, but in every resolved
case it redirects onward to the claim form. -/
def item_handshake (db : DB) (token : Uuid) : HandshakeResult :=
  match db.items.find? (fun it => it.handshake_uuid == token) with
  | none => .notFound
  | some item => .redirectClaimCreate item.id (item.status != .found)

/-! ### Invariants -/

/-- At most one claim per (item, seeker) pair (`Claim.Meta` unique
constraint). -/
def UniqueClaimPairs (db : DB) : Prop :=
  db.claims.Pairwise (fun a b => ¬(a.item = b.item ∧ a.seeker = b.seeker))

/-- All handshake tokens pairwise distinct (`handshake_uuid` `unique=True`). -/
def TokensDistinct (db : DB) : Prop :=
  db.items.Pairwise (fun a b => a.handshake_uuid ≠ b.handshake_uuid)

/-- A sequence of `item_edit` calls, applied in order. -/
def applyEdits (db : DB) (es : List (UserId × ItemId × ItemChanges)) : DB :=
  es.foldl (fun d e => (item_edit d e.1 e.2.1 e.2.2).2) db

/-! ### Helper lemmas -/

/-- `claim_create` preserves the one-claim-per-(item, seeker) invariant: the
only branch that inserts a row first observed that no claim for the pair
exists. -/
theorem claim_create_preserves_uniqueClaimPairs
    (db : DB) (u : UserId) (ipk : ItemId) (p : String) (nid : ClaimId)
    (h : UniqueClaimPairs db) : UniqueClaimPairs (claim_create db u ipk p nid).2 := by
  unfold claim_create
  cases hfi : findItem db ipk with
  | none => exact h
  | some item =>
    dsimp only
    by_cases hself : (item.finder == u) = true
    · rw [if_pos hself]; exact h
    · rw [if_neg hself]
      cases hex : db.claims.find? (fun c => c.item == item.id && c.seeker == u) with
      | some e => exact h
      | none =>
        dsimp only
        by_cases hv : claimFormValid p = true
        · rw [if_pos hv]
          unfold UniqueClaimPairs at h ⊢
          dsimp only
          rw [List.pairwise_append]
          refine ⟨h, List.pairwise_singleton _ _, ?_⟩
          intro a ha b hb hab
          have hb2 : b = (⟨nid, item.id, u, p, .pending⟩ : Claim) := List.mem_singleton.mp hb
          have hnone := List.find?_eq_none.mp hex a ha
          apply hnone
          rw [hb2] at hab
          simp only [Bool.and_eq_true, beq_iff_eq]
          exact ⟨hab.1, hab.2⟩
        · rw [if_neg hv]; exact h

/-- The stable sort underlying `claimThread` never reorders messages with
equal timestamps: restricting the sorted list to one timestamp equals
restricting the unsorted list to that timestamp. -/
theorem insertionSort_filter_timestamp (l : List Message) (t : Nat) :
    (List.insertionSort msgLE l).filter (fun m => m.created_at == t)
      = l.filter (fun m => m.created_at == t) := by
  have hmemA : ∀ a ∈ l.filter (fun m => m.created_at == t), a.created_at = t := by
    intro a ha
    have h2 := (List.mem_filter.mp ha).2
    simpa using h2
  have hpair : (l.filter (fun m => m.created_at == t)).Pairwise msgLE := by
    refine List.pairwise_of_forall_mem_list ?_
    intro a ha b hb
    unfold msgLE
    rw [hmemA a ha, hmemA b hb]
  have hsub : List.Sublist (l.filter (fun m => m.created_at == t))
      (List.insertionSort msgLE l) :=
    List.sublist_insertionSort hpair (List.filter_sublist l)
  have hAA : (l.filter (fun m => m.created_at == t)).filter (fun m => m.created_at == t)
      = l.filter (fun m => m.created_at == t) :=
    List.filter_eq_self.mpr (fun a ha => by simpa using hmemA a ha)
  have hsub2 := hsub.filter (fun m => m.created_at == t)
  rw [hAA] at hsub2
  have hperm : List.Perm ((List.insertionSort msgLE l).filter (fun m => m.created_at == t))
      (l.filter (fun m => m.created_at == t)) :=
    (List.perm_insertionSort msgLE l).filter _
  exact (hsub2.eq_of_length hperm.length_eq.symm).symm

/-- `item_edit` never changes any item's id or handshake token. -/
theorem item_edit_preserves_id_token (db : DB) (u : UserId) (pk : ItemId) (ch : ItemChanges) :
    ((item_edit db u pk ch).2).items.map (fun it => (it.id, it.handshake_uuid))
      = db.items.map (fun it => (it.id, it.handshake_uuid)) := by
  unfold item_edit
  cases hf : db.items.find? (fun it => it.id == pk && it.finder == u) with
  | none => rfl
  | some it =>
    dsimp only
    by_cases hv : itemFormValid ch = true
    · rw [if_pos hv]
      dsimp only
      rw [List.map_map]
      apply List.map_congr_left
      intro j hj
      by_cases h : (j.id == pk) = true <;> simp [Function.comp, h, applyChanges]
    · rw [if_neg hv]

/-- A sequence of `item_edit` calls never changes any item's id or token. -/
theorem applyEdits_preserves_id_token (es : List (UserId × ItemId × ItemChanges)) :
    ∀ db : DB, (applyEdits db es).items.map (fun it => (it.id, it.handshake_uuid))
      = db.items.map (fun it => (it.id, it.handshake_uuid)) := by
  induction es with
  | nil => intro db; rfl
  | cons e es ih =>
    intro db
    have hstep : applyEdits db (e :: es) = applyEdits ((item_edit db e.1 e.2.1 e.2.2).2) es := rfl
    rw [hstep, ih, item_edit_preserves_id_token]

/-- A single committed write never changes any item's id or token. -/
theorem applyWrite_preserves_id_token (db : DB) (w : WriteOp) :
    ((applyWrite db w).items).map (fun it => (it.id, it.handshake_uuid))
      = db.items.map (fun it => (it.id, it.handshake_uuid)) := by
  cases w with
  | setItemStatus i s =>
    simp only [applyWrite, List.map_map]
    apply List.map_congr_left
    intro j hj
    by_cases h : (j.id == i) = true <;> simp [Function.comp, h]
  | setClaimStatus c s => rfl

/-- A committed write sequence never changes any item's id or token. -/
theorem applyWrites_preserves_id_token (ws : List WriteOp) :
    ∀ db : DB, ((applyWrites db ws).items).map (fun it => (it.id, it.handshake_uuid))
      = db.items.map (fun it => (it.id, it.handshake_uuid)) := by
  induction ws with
  | nil => intro db; rfl
  | cons w ws ih =>
    intro db
    have hstep : applyWrites db (w :: ws) = applyWrites (applyWrite db w) ws := rfl
    rw [hstep, ih, applyWrite_preserves_id_token]

/-- `claim_respond` never changes any item's id or token. -/
theorem claim_respond_preserves_id_token (db : DB) (u : UserId) (pk : ClaimId) (a : String) :
    (((claim_respond db u pk a).2).items).map (fun it => (it.id, it.handshake_uuid))
      = db.items.map (fun it => (it.id, it.handshake_uuid)) := by
  unfold claim_respond
  cases hc : findClaim db pk with
  | none => rfl
  | some claim =>
    dsimp only
    cases hi : findItem db claim.item with
    | none => rfl
    | some item =>
      dsimp only
      by_cases hfin : (item.finder == u) = true
      · rw [if_pos hfin]
        by_cases ha : (a == "approve") = true
        · rw [if_pos ha]
          exact applyWrites_preserves_id_token _ db
        · rw [if_neg ha]
          by_cases hr : (a == "reject") = true
          · rw [if_pos hr]
            exact applyWrites_preserves_id_token _ db
          · rw [if_neg hr]
      · rw [if_neg hfin]

/-- If two stores agree on the list of item (id, token) pairs, token
distinctness transfers between them. -/
theorem tokensDistinct_of_map_eq {d d2 : DB}
    (h : d2.items.map (fun it => (it.id, it.handshake_uuid))
        = d.items.map (fun it => (it.id, it.handshake_uuid)))
    (hd : TokensDistinct d) : TokensDistinct d2 := by
  have h2 : d2.items.map (fun it => it.handshake_uuid)
      = d.items.map (fun it => it.handshake_uuid) := by
    have h3 := congrArg (List.map Prod.snd) h
    simpa [List.map_map, Function.comp] using h3
  unfold TokensDistinct at hd ⊢
  have hd2 : (d.items.map (fun it => it.handshake_uuid)).Pairwise (fun a b => a ≠ b) :=
    List.pairwise_map.mpr hd
  rw [← h2] at hd2
  exact List.pairwise_map.mp hd2

/-- The `unique=True` constraint on `handshake_uuid`: a successful insert
preserves token distinctness. -/
theorem item_create_preserves_tokensDistinct
    (db : DB) (u : UserId) (ch : ItemChanges) (nid : ItemId) (tok : Uuid) (db2 : DB)
    (h : item_create db u ch nid tok = .ok db2)
    (hd : TokensDistinct db) : TokensDistinct db2 := by
  unfold item_create at h
  by_cases hc : (db.items.any (fun it => it.id == nid || it.handshake_uuid == tok)) = true
  · rw [if_pos hc] at h
    cases h
  · rw [if_neg hc] at h
    injection h with h
    subst h
    unfold TokensDistinct at hd ⊢
    dsimp only
    rw [List.pairwise_append]
    refine ⟨hd, List.pairwise_singleton _ _, ?_⟩
    intro a ha b hb
    have hb2 : b = (⟨nid, u, ch.title, ch.description, ch.category, ch.image,
        ch.neighborhood, ch.city, .found, tok⟩ : Item) := List.mem_singleton.mp hb
    subst hb2
    intro hEq
    apply hc
    rw [List.any_eq_true]
    exact ⟨a, ha, by simp [hEq]⟩

/-! ### Claim C1: one claim per (item, seeker); resubmission is idempotent -/

/-- Claim C1: at most one Claim exists per (item, seeker) pair —
`claim_create` preserves the uniqueness invariant of `Claim.Meta` — and
submitting a claim a second time (with arbitrary, possibly different proof
text) creates no second record and redirects to the already-existing Claim
with the store unchanged, so the first submission's proof text is
preserved. -/
theorem claim_create_resubmission_idempotent
    (db : DB) (user : UserId) (ipk : ItemId) (proof2 : String) (nid : ClaimId)
    (item : Item) (e : Claim)
    (hitem : findItem db ipk = some item)
    (hnf : ¬item.finder = user)
    (hfind : db.claims.find? (fun c => c.item == item.id && c.seeker == user) = some e) :
    claim_create db user ipk proof2 nid = (.existingRedirect e.id, db)
    ∧ (∀ d u2 i2 p2 n2, UniqueClaimPairs d → UniqueClaimPairs (claim_create d u2 i2 p2 n2).2) := by
  constructor
  · unfold claim_create
    rw [hitem]
    dsimp only
    rw [if_neg (fun hb => hnf (by simpa using hb)), hfind]
  · intro d u2 i2 p2 n2 hu
    exact claim_create_preserves_uniqueClaimPairs d u2 i2 p2 n2 hu

def itemC1 : Item := ⟨1, 1, "Black wallet", "leather, worn", "bags", "", "Downtown", "Unknown", .found, 100⟩

def claimC1 : Claim := ⟨11, 1, 2, "first proof", .pending⟩

def dbC1 : DB := ⟨[itemC1], [claimC1], []⟩

/-- Witness for C1 at a concrete store: resubmitting with different proof
text returns the existing claim and the store is unchanged. -/
theorem claim_create_resubmission_idempotent_witness :
    claim_create dbC1 2 1 "totally different proof" 99 = (.existingRedirect 11, dbC1) :=
  (claim_create_resubmission_idempotent dbC1 2 1 "totally different proof" 99 itemC1 claimC1
    rfl (by decide) rfl).1

/-! ### Claim C6: self-claims are rejected and create nothing -/

/-- Claim C6: a submission by the item's own finder takes the
warn-and-redirect branch and creates no Claim: the store is returned
unchanged, so the set of claims afterwards is exactly what it was before. -/
theorem claim_create_self_claim_rejected
    (db : DB) (user : UserId) (ipk : ItemId) (proof : String) (nid : ClaimId)
    (item : Item)
    (hitem : findItem db ipk = some item)
    (hf : item.finder = user) :
    claim_create db user ipk proof nid = (.selfClaimRedirect item.id, db)
    ∧ ((claim_create db user ipk proof nid).2).claims = db.claims := by
  have he : claim_create db user ipk proof nid = (.selfClaimRedirect item.id, db) := by
    unfold claim_create
    rw [hitem]
    dsimp only
    rw [if_pos (by simpa using hf)]
  exact ⟨he, by rw [he]⟩

def itemC6 : Item := ⟨1, 5, "Camera", "black DSLR", "electronics", "", "West End", "Unknown", .found, 106⟩

def dbC6 : DB := ⟨[itemC6], [], []⟩

/-- Witness for C6 at a concrete store: the finder's own submission is
rejected and zero claims exist afterwards. -/
theorem claim_create_self_claim_rejected_witness :
    claim_create dbC6 5 1 "it is mine" 42 = (.selfClaimRedirect 1, dbC6) :=
  (claim_create_self_claim_rejected dbC6 5 1 "it is mine" 42 itemC6 rfl rfl).1

/-! ### Claim C5: claim submission does not check the item's status -/

def itemC5 : Item := ⟨1, 1, "Umbrella", "red stripes", "other", "", "Central", "Unknown", .claimed, 105⟩

def dbC5 : DB := ⟨[itemC5], [], []⟩

/-- Counterexample to C5 as stated: on an item whose status is `claimed`, a
fresh seeker's submission succeeds and a new Claim is created — the item's
handshake entry point also still routes the seeker onward to the claim
form. -/
theorem claim_create_on_claimed_item_counterexample :
    (findItem dbC5 1).map Item.status = some .claimed
    ∧ (claim_create dbC5 2 1 "red with white stripes" 10).1 = .created 10
    ∧ ((claim_create dbC5 2 1 "red with white stripes" 10).2).claims.length = 1
    ∧ dbC5.claims.length = 0
    ∧ item_handshake dbC5 105 = .redirectClaimCreate 1 true := by decide

/-- Claim C5 amended: `claim_create` never reads `item.status`; for an item
of any non-`found` status, a submission that passes the self-claim check,
the duplicate check and form validation creates a new `pending` Claim
exactly as it would on a `found` item. -/
theorem claim_create_ignores_item_status
    (db : DB) (user : UserId) (ipk : ItemId) (proof : String) (nid : ClaimId)
    (item : Item)
    (hitem : findItem db ipk = some item)
    (hst : ¬item.status = ItemStatus.found)
    (hnf : ¬item.finder = user)
    (hnone : db.claims.find? (fun c => c.item == item.id && c.seeker == user) = none)
    (hv : claimFormValid proof = true) :
    claim_create db user ipk proof nid
      = (.created nid,
         { db with claims := db.claims ++ [⟨nid, item.id, user, proof, .pending⟩] }) := by
  unfold claim_create
  rw [hitem]
  dsimp only
  rw [if_neg (fun hb => hnf (by simpa using hb)), hnone]
  dsimp only
  rw [if_pos hv]

def itemC5r : Item := ⟨1, 1, "Scarf", "wool, blue", "clothing", "", "Old Town", "Unknown", .returned, 107⟩

def dbC5r : DB := ⟨[itemC5r], [], []⟩

/-- Witness for the amended C5 at a concrete store: a submission on a
`returned` item creates a pending claim. -/
theorem claim_create_ignores_item_status_witness :
    claim_create dbC5r 2 1 "blue wool scarf" 10
      = (.created 10, ⟨[itemC5r], [⟨10, 1, 2, "blue wool scarf", .pending⟩], []⟩) :=
  claim_create_ignores_item_status dbC5r 2 1 "blue wool scarf" 10 itemC5r
    rfl (by decide) (by decide) rfl (by decide)

/-! ### Claim C2: the two approval writes are two separate commits -/

def itemC2 : Item := ⟨1, 1, "Keys", "three keys, red fob", "keys", "", "Harbor", "Unknown", .found, 102⟩

def claimC2 : Claim := ⟨31, 1, 2, "red fob with initials", .pending⟩

def dbC2 : DB := ⟨[itemC2], [claimC2], []⟩

/-- Claim C2 is violated by the code: the approve branch issues two separate
commits (`claim.item.save()` first, then `claim.save()`), with no
transaction around them.  `claim_respond` on approve applies exactly this
two-element write sequence, and the store after the first commit alone — the
state persisted if the second save never executes — has the item `claimed`
while the claim is still `pending`: one status write in effect without the
other. -/
theorem claim_respond_approve_two_separate_commits :
    claim_respond dbC2 1 31 "approve"
      = (.done 31, applyWrites dbC2 (approveWrites claimC2))
    ∧ approveWrites claimC2
      = [.setItemStatus 1 .claimed, .setClaimStatus 31 .approved]
    ∧ (findItem (applyWrites dbC2 ((approveWrites claimC2).take 1)) 1).map Item.status
      = some .claimed
    ∧ (findClaim (applyWrites dbC2 ((approveWrites claimC2).take 1)) 31).map Claim.status
      = some .pending := by decide

/-! ### Claim C3: no guard against responding to a terminal claim -/

def itemC3 : Item := ⟨1, 1, "Phone", "cracked screen", "electronics", "", "Midtown", "Unknown", .claimed, 103⟩

def claimC3a : Claim := ⟨11, 1, 2, "lock screen photo", .approved⟩

def claimC3b : Claim := ⟨12, 1, 3, "serial number", .pending⟩

def dbC3 : DB := ⟨[itemC3], [claimC3a, claimC3b], []⟩

/-- Claim C3 is violated by the code: `claim_respond` never inspects the
claim's current status.  Rejecting the already-approved claim 11 succeeds
and overwrites its terminal status, and approving the second, still-pending
claim 12 of the same already-claimed item also succeeds and marks it
approved — no invalid-state error in either case. -/
theorem claim_respond_no_terminal_guard :
    (claim_respond dbC3 1 11 "reject").1 = .done 11
    ∧ findClaim (claim_respond dbC3 1 11 "reject").2 11
      = some ⟨11, 1, 2, "lock screen photo", .rejected⟩
    ∧ (findItem dbC3 1).map Item.status = some .claimed
    ∧ (claim_respond dbC3 1 12 "approve").1 = .done 12
    ∧ findClaim (claim_respond dbC3 1 12 "approve").2 12
      = some ⟨12, 1, 3, "serial number", .approved⟩ := by decide

/-! ### Claim C4: backward status transitions are not rejected -/

def itemC4 : Item := ⟨1, 1, "Backpack", "green, many pockets", "bags", "", "Station", "Unknown", .returned, 104⟩

def claimC4 : Claim := ⟨21, 1, 2, "broken zipper inside", .pending⟩

def dbC4 : DB := ⟨[itemC4], [claimC4], []⟩

/-- Claim C4 is violated by the code: on an item whose status is already
`returned`, approving a pending claim succeeds and moves the item's status
backwards to `claimed` — the `returned → claimed` regression is performed,
not rejected as an invalid-state error. -/
theorem claim_respond_backward_transition_performed :
    (findItem dbC4 1).map Item.status = some .returned
    ∧ (claim_respond dbC4 1 21 "approve").1 = .done 21
    ∧ (findItem (claim_respond dbC4 1 21 "approve").2 1).map Item.status = some .claimed := by decide

/-! ### Claim C7: how non-participants are denied -/

def itemC7 : Item := ⟨1, 1, "Ring", "gold band", "jewelry", "", "Park", "Unknown", .found, 108⟩

def claimC7 : Claim := ⟨41, 1, 2, "engraved initials", .pending⟩

def dbC7 : DB := ⟨[itemC7], [claimC7], [⟨61, 41, 2, "hello", 1⟩]⟩

/-- Counterexample to C7 as stated: for user 3, who is neither the seeker
(2) nor the finder (1) of claim 41, the claim-detail view answers with the
not-found outcome (`raise Http404`), not with the Forbidden outcome the
claim asserts for all three operations. -/
theorem claim_detail_stranger_not_forbidden_counterexample :
    claim_detail dbC7 3 41 = .notFound
    ∧ claim_detail dbC7 3 41 ≠ .forbidden
    ∧ findClaim dbC7 41 ≠ none := by decide

/-- Claim C7 amended: a user who is neither the claim's seeker nor the
item's finder is denied by all three operations and the denied send writes
nothing — but while the two message endpoints answer 403 Forbidden, the
claim-detail view hides the claim behind a 404 not-found outcome. -/
theorem stranger_denied_messages_send_and_detail
    (db : DB) (u : UserId) (pk : ClaimId) (claim : Claim) (item : Item)
    (hc : findClaim db pk = some claim)
    (hi : findItem db claim.item = some item)
    (hs : ¬u = claim.seeker)
    (hf : ¬u = item.finder) :
    (∀ aft, api_messages db u pk aft = .forbidden)
    ∧ (∀ body nid now, api_send_message db u pk body nid now = (.forbidden, db))
    ∧ claim_detail db u pk = .notFound := by
  have hcond : (u == claim.seeker || u == item.finder) = false := by
    simp [hs, hf]
  refine ⟨fun aft => ?_, fun body nid now => ?_, ?_⟩
  · unfold api_messages
    rw [hc]
    dsimp only
    rw [hi]
    dsimp only
    rw [hcond]
    rfl
  · unfold api_send_message
    rw [hc]
    dsimp only
    rw [hi]
    dsimp only
    rw [hcond]
    rfl
  · unfold claim_detail
    rw [hc]
    dsimp only
    rw [hi]
    dsimp only
    rw [hcond]
    rfl

/-- Witness for the amended C7 at a concrete store: user 3 gets 403 from the
message-listing endpoint of claim 41. -/
theorem stranger_denied_messages_send_and_detail_witness :
    api_messages dbC7 3 41 none = .forbidden :=
  (stranger_denied_messages_send_and_detail dbC7 3 41 claimC7 itemC7
    rfl rfl (by decide) (by decide)).1 none

/-! ### Claim C8: thread listing order and the after-cursor -/

/-- Claim C8: for an authorized caller, the listing with no cursor is the
claim's full thread; the thread is sorted ascending by `created_at` and the
sort is stable (each timestamp class keeps the insertion order of the
claim's messages); with a cursor that resolves to a message, the result is
exactly the thread restricted to strictly greater timestamps (membership
characterised below); and with a cursor id that resolves to nothing the full
thread is returned.  The listing is a pure function of the store and the
cursor, so repeating a call returns the same list. -/
theorem api_messages_thread_listing
    (db : DB) (u : UserId) (pk : ClaimId) (claim : Claim) (item : Item)
    (hc : findClaim db pk = some claim)
    (hi : findItem db claim.item = some item)
    (hauth : u = claim.seeker ∨ u = item.finder) :
    api_messages db u pk none = .ok (claimThread db claim.id)
    ∧ (claimThread db claim.id).Sorted msgLE
    ∧ (∀ t : Nat, (claimThread db claim.id).filter (fun m => m.created_at == t)
        = (db.messages.filter (fun m => m.claim == claim.id)).filter (fun m => m.created_at == t))
    ∧ (∀ aId last_msg, findMessage db aId = some last_msg →
        api_messages db u pk (some aId)
          = .ok ((claimThread db claim.id).filter (fun m => last_msg.created_at < m.created_at)))
    ∧ (∀ (last_msg m : Message),
        m ∈ (claimThread db claim.id).filter (fun m2 => last_msg.created_at < m2.created_at)
        ↔ m ∈ db.messages ∧ m.claim = claim.id ∧ last_msg.created_at < m.created_at)
    ∧ (∀ aId, findMessage db aId = none →
        api_messages db u pk (some aId) = .ok (claimThread db claim.id)) := by
  have hcond : (u == claim.seeker || u == item.finder) = true := by
    rcases hauth with h | h <;> simp [h]
  refine ⟨?_, ?_, ?_, ?_, ?_, ?_⟩
  · unfold api_messages
    rw [hc]
    dsimp only
    rw [hi]
    dsimp only
    rw [hcond]
    rfl
  · exact List.sorted_insertionSort msgLE _
  · intro t
    exact insertionSort_filter_timestamp _ t
  · intro aId last_msg hfind
    unfold api_messages
    rw [hc]
    dsimp only
    rw [hi]
    dsimp only
    rw [hcond, hfind]
    rfl
  · intro last_msg m
    unfold claimThread
    rw [List.mem_filter, List.mem_insertionSort, List.mem_filter]
    simp only [beq_iff_eq, decide_eq_true_eq, and_assoc]
  · intro aId hnone
    unfold api_messages
    rw [hc]
    dsimp only
    rw [hi]
    dsimp only
    rw [hcond, hnone]
    rfl

def itemC8 : Item := ⟨1, 1, "Watch", "leather strap", "jewelry", "", "Beach", "Unknown", .found, 109⟩

def claimC8 : Claim := ⟨51, 1, 2, "scratch on glass", .pending⟩

def dbC8 : DB :=
  ⟨[itemC8], [claimC8],
   [⟨61, 51, 2, "hi", 5⟩, ⟨62, 51, 1, "hello", 3⟩, ⟨63, 51, 2, "meet where", 5⟩]⟩

/-- Witness for C8 at a concrete store: the seeker's cursor-free listing
returns the full thread. -/
theorem api_messages_thread_listing_witness :
    api_messages dbC8 2 51 none = .ok (claimThread dbC8 51) :=
  (api_messages_thread_listing dbC8 2 51 claimC8 itemC8 rfl rfl (Or.inl rfl)).1

/-! ### Claim C10: a cursor from a foreign claim is accepted -/

/-- Claim C10: the cursor lookup is a global `Message.objects.get(pk=after)`
— the cursor message's claim membership is never compared with the claim
being listed.  A cursor resolving to a message of a different claim is
accepted, and the requested claim's thread is filtered by that foreign
message's timestamp. -/
theorem api_messages_foreign_cursor_accepted
    (db : DB) (u : UserId) (pk : ClaimId) (claim : Claim) (item : Item)
    (aId : MsgId) (last_msg : Message)
    (hc : findClaim db pk = some claim)
    (hi : findItem db claim.item = some item)
    (hauth : u = claim.seeker ∨ u = item.finder)
    (hfind : findMessage db aId = some last_msg)
    (hforeign : ¬last_msg.claim = claim.id) :
    api_messages db u pk (some aId)
      = .ok ((claimThread db claim.id).filter (fun m => last_msg.created_at < m.created_at)) := by
  have hcond : (u == claim.seeker || u == item.finder) = true := by
    rcases hauth with h | h <;> simp [h]
  unfold api_messages
  rw [hc]
  dsimp only
  rw [hi]
  dsimp only
  rw [hcond, hfind]
  rfl

def itemC10a : Item := ⟨1, 1, "Glasses", "round frame", "other", "", "Library", "Unknown", .found, 110⟩

def itemC10b : Item := ⟨2, 3, "Hat", "straw hat", "clothing", "", "Pier", "Unknown", .found, 111⟩

def claimC10a : Claim := ⟨51, 1, 2, "prescription details", .pending⟩

def claimC10b : Claim := ⟨52, 2, 4, "bought in Rome", .pending⟩

def dbC10 : DB :=
  ⟨[itemC10a, itemC10b], [claimC10a, claimC10b],
   [⟨61, 51, 2, "old msg", 1⟩, ⟨62, 52, 4, "foreign cursor", 2⟩, ⟨63, 51, 1, "new msg", 3⟩]⟩

/-- Witness for C10 at a concrete store: listing claim 51 with a cursor that
names message 62 of the other claim 52 is accepted and filters claim 51's
thread by the foreign timestamp 2, leaving only the newer message 63. -/
theorem api_messages_foreign_cursor_accepted_witness :
    api_messages dbC10 2 51 (some 62) = .ok [⟨63, 51, 1, "new msg", 3⟩] := by
  have h := api_messages_foreign_cursor_accepted dbC10 2 51 claimC10a itemC10a 62
    ⟨62, 52, 4, "foreign cursor", 2⟩ rfl rfl (Or.inl rfl) rfl (by decide)
  rw [h]
  rfl

/-! ### Claim C9: handshake tokens are unique and stable -/

/-- Claim C9: a successful `item_create` mints the token once, and the
`unique=True` constraint keeps all tokens pairwise distinct; every item's
(id, token) pairing is left unchanged by any sequence of `item_edit` calls
(the form carries neither `status` nor `handshake_uuid`) and by every
`claim_respond` call, so token distinctness also persists across them. -/
theorem handshake_token_unique_and_stable
    (db : DB) (u : UserId) (ch : ItemChanges) (nid : ItemId) (tok : Uuid) (db2 : DB)
    (es : List (UserId × ItemId × ItemChanges))
    (hd : TokensDistinct db)
    (hcr : item_create db u ch nid tok = .ok db2) :
    TokensDistinct db2
    ∧ (applyEdits db2 es).items.map (fun it => (it.id, it.handshake_uuid))
        = db2.items.map (fun it => (it.id, it.handshake_uuid))
    ∧ TokensDistinct (applyEdits db2 es)
    ∧ (∀ d u3 pk a, (((claim_respond d u3 pk a).2).items).map (fun it => (it.id, it.handshake_uuid))
        = d.items.map (fun it => (it.id, it.handshake_uuid))) := by
  have h1 : TokensDistinct db2 := item_create_preserves_tokensDistinct db u ch nid tok db2 hcr hd
  have h2 := applyEdits_preserves_id_token es db2
  exact ⟨h1, h2, tokensDistinct_of_map_eq h2 h1,
    fun d u3 pk a => claim_respond_preserves_id_token d u3 pk a⟩

def chC9 : ItemChanges := ⟨"Wallet", "brown leather", "bags", "", "Market", "Unknown"⟩

def chC9b : ItemChanges := ⟨"Wallet (updated)", "brown leather, small tear", "bags", "", "Market square", "Springfield"⟩

def dbC9 : DB := ⟨[⟨7, 1, "Bike", "blue frame", "other", "", "Canal", "Unknown", .found, 200⟩], [], []⟩

def dbC9created : DB :=
  ⟨[⟨7, 1, "Bike", "blue frame", "other", "", "Canal", "Unknown", .found, 200⟩,
    ⟨8, 1, "Wallet", "brown leather", "bags", "", "Market", "Unknown", .found, 201⟩], [], []⟩

/-- Witness for C9 at a concrete store: after creating item 8 with token
201 next to item 7 with token 200, an edit of item 8 leaves every (id,
token) pairing as it was. -/
theorem handshake_token_unique_and_stable_witness :
    (applyEdits dbC9created [(1, 8, chC9b)]).items.map (fun it => (it.id, it.handshake_uuid))
      = dbC9created.items.map (fun it => (it.id, it.handshake_uuid)) :=
  (handshake_token_unique_and_stable dbC9 1 chC9 8 201 dbC9created [(1, 8, chC9b)]
    (by unfold TokensDistinct; exact List.pairwise_singleton _ _) rfl).2.1

end LostFound
